import Mathlib

/-!
Verification development for the autosurf-server-node agent orchestration
engine.  The definitions below are a shallow embedding of the TypeScript
sources:

* `src/real-browsing-agent/open-ai-agent.ts`   (class `AIBrowserAgent`)
* `src/real-browsing-agent/script-runner-agent.ts` (class `ScriptRunnerAgent`)
* `src/real-browsing-agent/tools/ClickTool.ts`
* `src/real-browsing-agent/utils/HighlightScript.ts`
* `src/websocket/agentSocket.ts` and `src/websocket/scriptRunnerSocket.ts`

Pure functions of the source become Lean functions; stateful loops become
explicit state passing; JavaScript exceptions become `Except`; values of
interest on the live page (DOM elements, evaluation results) become records
whose fields are exactly the data the scripts inspect.
-/

namespace Autosurf

/-! ## JavaScript string helpers

`message.replace(/\[.*?\]/g, "")` removes every lazily matched bracket
group: starting at a `[`, the regex consumes up to the first following `]`,
and `.` does not match a newline, so a newline before the closing bracket
makes the match fail at that position. -/

/-- One lazy `\[.*?\]` scan over a character list, removing each match,
as performed by `String.replace` with the global regex in
`responseValidator` (open-ai-agent.ts line 103).  The fuel argument only
makes the recursion structural (each scanned position consumes one unit;
`l.length` units suffice); it does not change the result. -/
def stripBracketsFuel : Nat → List Char → List Char
  | 0, l => l
  | _ + 1, [] => []
  | fuel + 1, c :: rest =>
    if c = '[' then
      let pre := rest.takeWhile (fun d => d ≠ ']')
      if pre.length = rest.length ∨ pre.contains '\n' then
        c :: stripBracketsFuel fuel rest
      else
        stripBracketsFuel fuel (rest.drop (pre.length + 1))
    else
      c :: stripBracketsFuel fuel rest

/-- The lazy bracket-removal scan over a character list. -/
def stripBracketsAux (l : List Char) : List Char :=
  stripBracketsFuel l.length l

/-- `message.replace(/\[.*?\]/g, "")` on a whole string. -/
def stripBrackets (s : String) : String :=
  (stripBracketsAux s.data).asString

/-- JavaScript `String.prototype.trim`: whitespace removed from both
ends. -/
def jsTrim (s : String) : String :=
  (((s.data.dropWhile Char.isWhitespace).reverse.dropWhile
      Char.isWhitespace).reverse).asString

/-- `message.replace(/\[.*?\]/g, "").trim()`: the `filteredMessage` of
`responseValidator`. -/
def filteredOf (s : String) : String :=
  jsTrim (stripBrackets s)

/-- JavaScript `toLowerCase()` (restricted to the char-wise lowering that
the identifiers in this code base exercise). -/
def jsLower (s : String) : String :=
  (s.data.map Char.toLower).asString

/-- JavaScript `a.includes(b)`: `b` occurs as a contiguous substring of
`a` (and the empty string is included in everything). -/
def jsIncludes (a b : String) : Bool :=
  a.data.tails.any (fun t => b.data.isPrefixOf t)

/-! ## Commands recorded by the live run (open-ai-agent.ts)

`executeAction` pushes one entry onto `executedCommands` per successful
tool dispatch; `getExecutedCommands` then renders the list as a puppeteer
script, with one `switch` case per command kind — and no case at all for
`solveCaptcha`. -/

/-- The tool call extracted from the model response, with the argument
fields `executeAction` reads. -/
inductive ToolCall where
  | handleUrl (url : String)
  | handleSearch (query : String)
  | handleClick (identifier : String)
  | handleTyping (placeholder_value text : String)
  | handleTypingWithEnter (placeholder_value text : String)
  | handleCaptcha
  | scrollDown
  | handleBack
  | unknownTool (nm : String)
deriving DecidableEq, Repr

/-- The tool name string of a call (used in the `Unknown tool` error and
the post-action screenshot message). -/
def toolNameOf : ToolCall → String
  | .handleUrl _ => "handle_url"
  | .handleSearch _ => "handle_search"
  | .handleClick _ => "handle_click"
  | .handleTyping _ _ => "handle_typing"
  | .handleTypingWithEnter _ _ => "handle_typing_with_enter"
  | .handleCaptcha => "handle_captcha"
  | .scrollDown => "scroll_down"
  | .handleBack => "handle_back"
  | .unknownTool nm => nm

/-- An entry of `AIBrowserAgent.executedCommands`. -/
inductive Cmd where
  | goto (url : String)
  | click (selector : String)
  | typeCmd (selector value : String)
  | typeAndEnter (selector value : String)
  | solveCaptcha
  | scroll
  | back
deriving DecidableEq, Repr

/-- The `executedCommands.push({...})` entry produced by each `switch`
case of `executeAction` (open-ai-agent.ts lines 315-390); the `default`
case throws instead of pushing, hence `none`. -/
def toolCmd : ToolCall → Option Cmd
  | .handleUrl u => some (Cmd.goto u)
  | .handleSearch q => some (Cmd.typeCmd "[name=\"q\"]" q)
  | .handleClick i => some (Cmd.click i)
  | .handleTyping p t => some (Cmd.typeCmd ("[placeholder=\"" ++ p ++ "\"]") t)
  | .handleTypingWithEnter p t => some (Cmd.typeAndEnter ("[placeholder=\"" ++ p ++ "\"]") t)
  | .handleCaptcha => some Cmd.solveCaptcha
  | .scrollDown => some Cmd.scroll
  | .handleBack => some Cmd.back
  | .unknownTool _ => none

/-- One emitted line of the generated replay script
(`getExecutedCommands`, open-ai-agent.ts lines 492-531). -/
inductive JsLine where
  | gotoLine (url : String)
  | clickLine (selector : String)
  | typeLine (selector value : String)
  | pressEnterLine
  | scrollByLine
  | goBackLine
  | waitTimeoutLine
deriving DecidableEq, Repr

/-- The lines emitted by the `switch (cmd.command)` of
`getExecutedCommands`: note the absence of a `solveCaptcha` case. -/
def cmdLines : Cmd → List JsLine
  | .goto u => [.gotoLine u]
  | .click s => [.clickLine s]
  | .typeCmd s v => [.typeLine s v]
  | .typeAndEnter s v => [.typeLine s v, .pressEnterLine]
  | .solveCaptcha => []
  | .scroll => [.scrollByLine]
  | .back => [.goBackLine]

/-- The full body of the generated script: per command, its lines followed
by the unconditional `await page.waitForTimeout(1000)` line. -/
def scriptBody (cmds : List Cmd) : List JsLine :=
  cmds.flatMap (fun c => cmdLines c ++ [JsLine.waitTimeoutLine])

/-- The command lines of the generated script (the scaffolding
`waitForTimeout` lines removed). -/
def scriptActionLines (cmds : List Cmd) : List JsLine :=
  (scriptBody cmds).filter (fun l => l ≠ JsLine.waitTimeoutLine)

/-! ## Run status persistence (agentSocket.ts `updateRunStatus`) -/

/-- Lifecycle status of a run (`AgentRunStatus`). -/
inductive RunStatus where
  | PENDING
  | INPROGRESS
  | FAILED
  | COMPLETED
deriving DecidableEq, Repr

/-- A step record `{number, action, explanation}`. -/
structure Step where
  number : Nat
  action : String
  explanation : String
deriving DecidableEq, Repr

/-- The persisted `steps` JSON object `{steps: [...], finalAnswer: ""}`. -/
structure StepsObj where
  steps : List Step
  finalAnswer : String
deriving DecidableEq, Repr

/-- The update object built by `updateRunStatus` (agentSocket.ts lines
336-372).  A field that the source does not put on `updateData` is `none`
in the two optional slots; `completed_at` is always present, with value
`null` (`none`) for `INPROGRESS`. -/
structure UpdatePayload where
  status : RunStatus
  completed_at : Option String
  stepsField : Option StepsObj
  commandsField : Option (Option (List Cmd))
deriving DecidableEq, Repr

/-- `updateRunStatus`: build the `updateData` object. -/
def mkUpdateData (status : RunStatus) (now : String)
    (steps : Option (List Step)) (finalAnswer : Option String)
    (commands : Option (List Cmd)) : UpdatePayload :=
  { status := status
  , completed_at := if status ≠ RunStatus.INPROGRESS then some now else none
  , stepsField :=
      if status = RunStatus.COMPLETED ∨ status = RunStatus.FAILED then
        some { steps := steps.getD [], finalAnswer := finalAnswer.getD "" }
      else none
  , commandsField :=
      if status = RunStatus.COMPLETED ∨ status = RunStatus.FAILED then
        some commands
      else none }

/-- The stored `agent_runs` row fields touched by the update. -/
structure RunRow where
  status : RunStatus
  completed_at : Option String
  steps : Option StepsObj
  commands : Option (List Cmd)
deriving DecidableEq, Repr

/-- Applying the supabase `.update(updateData)` to a row: only the fields
present on the update object are overwritten. -/
def applyUpdate (row : RunRow) (u : UpdatePayload) : RunRow :=
  { status := u.status
  , completed_at := u.completed_at
  , steps := match u.stepsField with
      | some s => some s
      | none => row.steps
  , commands := match u.commandsField with
      | some c => c
      | none => row.commands }

/-! ## CAPTCHA detection (`detectCaptcha`, open-ai-agent.ts lines
404-489; the copy in script-runner-agent.ts lines 70-135 is identical). -/

/-- The data the in-page evaluation extracts per candidate element. -/
structure CapElemInfo where
  display : String
  visibility : String
  width : Int
  height : Int
  src : String
deriving DecidableEq, Repr

/-- The element-level `isVisible` computed inside the evaluation:
visible style, positive box, and not the `api2/aframe` variant. -/
def capElemVisible (e : CapElemInfo) : Bool :=
  e.display ≠ "none" && e.visibility ≠ "hidden" &&
    e.width > 0 && e.height > 0 && !(jsIncludes e.src "api2/aframe")

/-- The page as `detectCaptcha` observes it: for each of the nine
selectors, the evaluation outcome of every matched element, in order.  An
`Except.error` entry is an evaluation that throws. -/
structure CapPage where
  queries : List (List (Except String CapElemInfo))
deriving Repr

/-- Scan the evaluation outcomes in order; the first throwing evaluation
propagates, the first visible element yields `true`. -/
def scanCapElems : List (Except String CapElemInfo) → Except String Bool
  | [] => Except.ok false
  | Except.error e :: _ => Except.error e
  | Except.ok info :: rest =>
      if capElemVisible info then Except.ok true else scanCapElems rest

/-- The body of the `try` block of `detectCaptcha`: loop selectors and
elements, returning on the first visible CAPTCHA element, and letting any
thrown evaluation error escape. -/
def detectCaptchaEval (p : CapPage) : Except String Bool :=
  scanCapElems p.queries.flatten

/-- `detectCaptcha` itself: the surrounding `catch` turns any error into
`false`. -/
def detectCaptcha (p : CapPage) : Bool :=
  match detectCaptchaEval p with
  | Except.ok b => b
  | Except.error _ => false

/-! ## Page annotator (HighlightScript.ts: `HIGHLIGHT_ELEMENTS_SCRIPT`
lines 300-405 and `REMOVE_HIGHLIGHTS_SCRIPT` lines 423-440).

A DOM element is modelled with exactly the data the scripts inspect: the
five text attributes, whether it matches the clickable selector
(`a, button, div[onclick], …`), whether it matches the broader removal
selector (which additionally covers `input`, `textarea`, `select`),
visibility, its client rect, the highlight class and `data-highlighted`
attribute, and its inline border style. -/

structure DElem where
  eid : Nat
  textContent : String
  value : String
  ariaLabel : String
  title : String
  placeholder : String
  clickable : Bool
  removable : Bool
  visible : Bool
  rectTop : Int
  rectLeft : Int
  highlightClass : Bool
  dataHighlighted : Bool
  inlineBorder : String
deriving DecidableEq, Repr

/-- `getElementIdentifier`: the first non-empty value among the trimmed
`textContent`, `value`, `aria-label`, `title` and `placeholder`, in that
priority order (HighlightScript.ts lines 364-371; ClickTool.ts repeats
the same chain inline in each evaluation). -/
def getElementIdentifier (e : DElem) : String :=
  if jsTrim e.textContent ≠ "" then jsTrim e.textContent
  else if jsTrim e.value ≠ "" then jsTrim e.value
  else if jsTrim e.ariaLabel ≠ "" then jsTrim e.ariaLabel
  else if jsTrim e.title ≠ "" then jsTrim e.title
  else if jsTrim e.placeholder ≠ "" then jsTrim e.placeholder
  else ""

/-- A `.highlight-label` badge appended to the body: its text and the
`top`/`left` pixel values of its inline style. -/
structure LabelEl where
  ltext : String
  ltop : Int
  lleft : Int
deriving DecidableEq, Repr

/-- The document state the annotator scripts manipulate. -/
structure Dom where
  elems : List DElem
  labels : List LabelEl
  hasHighlightStyle : Bool
deriving DecidableEq, Repr

/-- Removal phase of `HIGHLIGHT_ELEMENTS_SCRIPT`: every element carrying
the `highlighted-element` class loses the class and the
`data-highlighted` attribute. -/
def stripHighlight (e : DElem) : DElem :=
  if e.highlightClass then
    { e with highlightClass := false, dataHighlighted := false }
  else e

/-- The qualification test of the highlight pass:
`!element.dataset.highlighted && isElementVisible(element)` on an element
matched by the clickable selector. -/
def qualifies (e : DElem) : Bool :=
  e.clickable && !e.dataHighlighted && e.visible

/-- Marking a qualifying element: `dataset.highlighted = 'true'` and
`classList.add('highlighted-element')`. -/
def markHighlighted (e : DElem) : DElem :=
  { e with dataHighlighted := true, highlightClass := true }

/-- The label created for a qualifying element without identifier:
`textContent = index.toString()`, positioned at
`rect.top + window.scrollY - 25` / `rect.left + window.scrollX`. -/
def mkLabel (scrollY scrollX : Int) (idx : Nat) (e : DElem) : LabelEl :=
  { ltext := Nat.repr idx
  , ltop := e.rectTop + scrollY - 25
  , lleft := e.rectLeft + scrollX }

/-- Element transformation of the highlight pass. -/
def hiStep (e : DElem) : DElem :=
  if qualifies e then markHighlighted e else e

/-- Elements after the highlight pass. -/
def hiElems (l : List DElem) : List DElem :=
  l.map hiStep

/-- Labels appended by the highlight pass.  `numberIndex` is incremented
for every qualifying element (`createAndAdjustLabel(element,
numberIndex++)`), but a badge is only created when the element has no
identifier. -/
def hiLabels (scrollY scrollX : Int) : List DElem → Nat → List LabelEl
  | [], _ => []
  | e :: rest, idx =>
    if qualifies e then
      (if getElementIdentifier e = "" then [mkLabel scrollY scrollX idx e] else [])
        ++ hiLabels scrollY scrollX rest (idx + 1)
    else hiLabels scrollY scrollX rest idx

/-- `HIGHLIGHT_ELEMENTS_SCRIPT`: remove old labels and classes, ensure the
`highlight-style` stylesheet, then highlight and number afresh. -/
def annotate (scrollY scrollX : Int) (d : Dom) : Dom :=
  let cleared := d.elems.map stripHighlight
  { elems := hiElems cleared
  , labels := hiLabels scrollY scrollX cleared 1
  , hasHighlightStyle := true }

/-- `REMOVE_HIGHLIGHTS_SCRIPT`: remove every label, remove the injected
stylesheet, and blank the inline `border` of elements matching the
removal selector.  It touches neither the `highlighted-element` class nor
the `data-highlighted` attribute. -/
def clearHighlights (d : Dom) : Dom :=
  { elems := d.elems.map
      (fun e => if e.removable then { e with inlineBorder := "" } else e)
  , labels := []
  , hasHighlightStyle := false }

/-! ## Click resolution (ClickTool.ts) -/

/-- The text the click evaluations extract per element: identical fallback
chain to `getElementIdentifier`. -/
def elementText (e : DElem) : String :=
  getElementIdentifier e

/-- Exact match test of `findClickableElement`:
`elementText && text && elementText.toLowerCase() === text.toLowerCase()`. -/
def exactMatch (text : String) (e : DElem) : Bool :=
  elementText e ≠ "" && text ≠ "" && jsLower (elementText e) = jsLower text

/-- Substring match test:
`elementText && text && elementText.toLowerCase().includes(text.toLowerCase())`. -/
def subMatch (text : String) (e : DElem) : Bool :=
  elementText e ≠ "" && text ≠ "" && jsIncludes (jsLower (elementText e)) (jsLower text)

/-- `findClickableElement` (ClickTool.ts lines 108-200): exact pass over
the highlighted inventory, then substring pass, then exact and substring
passes over the standard interactive selectors (modelled as the per-
selector element lists, scanned selector by selector). -/
def findClickableElement (highlighted : List DElem)
    (standardGroups : List (List DElem)) (text : String) : Option DElem :=
  if text = "" then none
  else
    match highlighted.find? (exactMatch text) with
    | some e => some e
    | none =>
      match highlighted.find? (subMatch text) with
      | some e => some e
      | none =>
        match standardGroups.flatten.find? (exactMatch text) with
        | some e => some e
        | none => standardGroups.flatten.find? (subMatch text)

/-- The geometric recovery inside `findElementByLabel`: the first
highlighted element whose rect is within 5px of the label position plus
the 25px offset. -/
def labelNear (highlighted : List DElem) (l : LabelEl) : Option DElem :=
  highlighted.find? (fun e =>
    (e.rectTop - (l.ltop + 25)).natAbs < 5 && (e.rectLeft - l.lleft).natAbs < 5)

/-- `findElementByLabel` (ClickTool.ts lines 69-106): scan the
`.highlight-label` badges for one whose text equals the identifier, then
recover the element geometrically; on geometric failure continue with the
next badge. -/
def findElementByLabel (highlighted : List DElem) (lbl : String) :
    List LabelEl → Option DElem
  | [] => none
  | l :: rest =>
    if l.ltext = lbl then
      match labelNear highlighted l with
      | some e => some e
      | none => findElementByLabel highlighted lbl rest
    else findElementByLabel highlighted lbl rest

/-- The `/^\d+$/` test of `ClickTool.run`. -/
def isNumericId (s : String) : Bool :=
  s ≠ "" && s.data.all Char.isDigit

/-- `ClickTool.run` resolution (ClickTool.ts lines 33-67): text search
first; only if that fails and the identifier is purely numeric, fall back
to the label index; otherwise fail. -/
def clickRun (page : Dom) (standardGroups : List (List DElem))
    (identifier : String) : Except String DElem :=
  let highlighted := page.elems.filter (fun e => e.highlightClass)
  match findClickableElement highlighted standardGroups identifier with
  | some e => Except.ok e
  | none =>
    if isNumericId identifier then
      match findElementByLabel highlighted identifier page.labels with
      | some e => Except.ok e
      | none =>
          Except.error ("No clickable element found with text or label: " ++ identifier)
    else
      Except.error ("No clickable element found with text or label: " ++ identifier)

/-! ## Replay engine (scriptRunnerSocket.ts `handleScriptStart`,
lines 186-297) -/

/-- A stored trace command (`ScriptCommand` of types.ts). -/
inductive SCmd where
  | navigate (url : String)
  | click (identifier : String)
  | typeIn (placeholder_value text : String)
  | typeEnter (placeholder_value text : String)
  | search (query : String)
  | scroll
  | back
  | solveCaptcha
deriving DecidableEq, Repr

/-- Events observable during a replay: the messages sent on the socket
plus two markers — `dispatch c` for the call `agent.executeCommand(c)`
and `solverRun` for an invocation of the CAPTCHA solver
(`captchaSolver.run()`).  `handleScriptStart` never invokes the solver,
so `solverRun` never occurs in its event trace; the marker exists so that
its absence is expressible. -/
inductive REvent where
  | stepStarted (n : Nat)
  | captchaDetected
  | dispatch (c : SCmd)
  | captchaSolved
  | solverRun
  | stepCompleted (n : Nat)
  | failedMsg (msg : String)
  | completionMsg (msg : String)
deriving DecidableEq, Repr

/-- The per-step loop of `handleScriptStart` (lines 221-261), starting at
zero-based index `i`: emit `step_started`, run `detectCaptcha` (emitting
`captcha_detected` when positive), dispatch the command, then — when a
CAPTCHA had been detected and the dispatch did not throw — emit
`captcha_solved`, then `step_completed`.  A throwing dispatch sends a
`failed` message from the inner catch, rethrows, and the outer catch
sends `failed` again.  Returns the events and whether all steps ran. -/
def replayAux (detect : Nat → Bool) (execErr : Nat → Option String) :
    List SCmd → Nat → List REvent × Bool
  | [], _ => ([], true)
  | c :: rest, i =>
    let head :=
      [REvent.stepStarted (i + 1)]
        ++ (if detect i then [REvent.captchaDetected] else [])
        ++ [REvent.dispatch c]
    match execErr i with
    | some msg => (head ++ [REvent.failedMsg msg, REvent.failedMsg msg], false)
    | none =>
      let tail := replayAux detect execErr rest (i + 1)
      (head
        ++ (if detect i then [REvent.captchaSolved] else [])
        ++ [REvent.stepCompleted (i + 1)]
        ++ tail.1, tail.2)

/-- A full `handleScriptStart` run over the automation trace: the step
loop followed — when every step succeeded — by the completion message
carrying the final-screenshot analysis. -/
def replayEvents (steps : List SCmd) (detect : Nat → Bool)
    (execErr : Nat → Option String) (finalAnalysis : String) : List REvent :=
  let r := replayAux detect execErr steps 0
  r.1 ++ (if r.2 then [REvent.completionMsg finalAnalysis] else [])

/-- The command of a dispatch event. -/
def dispatchOf : REvent → Option SCmd
  | REvent.dispatch c => some c
  | _ => none

/-- The number of a `step_started` event. -/
def startedOf : REvent → Option Nat
  | REvent.stepStarted n => some n
  | _ => none

/-- The number of a `step_completed` event. -/
def completedOf : REvent → Option Nat
  | REvent.stepCompleted n => some n
  | _ => none

/-- The event block of one successful replay step. -/
def replayBlock (i : Nat) (c : SCmd) (det : Bool) : List REvent :=
  [REvent.stepStarted (i + 1)]
    ++ (if det then [REvent.captchaDetected] else [])
    ++ [REvent.dispatch c]
    ++ (if det then [REvent.captchaSolved] else [])
    ++ [REvent.stepCompleted (i + 1)]

/-! ## Decision loop (`AIBrowserAgent.performTask`, open-ai-agent.ts
lines 533-634, with `responseValidator` lines 101-162 and
`executeAction` lines 292-402) -/

/-- One model response together with the environment outcomes of the
actions the loop would take on it: whether the CAPTCHA pre-check detects
a CAPTCHA, whether the solver reply contains `Success`, whether the tool
run throws (`some` message) and the captured post-action screenshot. -/
structure ModelResponse where
  content : Option String
  toolCall : Option ToolCall
  captchaDetected : Bool
  captchaSolveOk : Bool
  toolError : Option String
  screenshot : Option String
deriving DecidableEq, Repr

/-- A conversation message. -/
inductive Msg where
  | systemMsg
  | userMsg (s : String)
  | assistantMsg (s : String)
  | screenshotMsg (toolName : String)
deriving DecidableEq, Repr

/-- The mutable state of `performTask`: the step counter, the
`prev_message` of the validator, the accumulated `executedCommands`, the
conversation, and the number of model invocations made. -/
structure LoopState where
  stepCount : Nat
  prevMessage : String
  commands : List Cmd
  messages : List Msg
  modelCalls : Nat
deriving DecidableEq, Repr

/-- The state at loop entry: counters at zero, empty `prev_message`,
no commands, and the conversation seeded with the system prompt and the
task. -/
def initialState (task : String) : LoopState :=
  { stepCount := 0
  , prevMessage := ""
  , commands := []
  , messages := [Msg.systemMsg, Msg.userMsg task]
  , modelCalls := 0 }

/-- How `performTask` ends: a final answer (no tool call), the `while`
condition turning false at 25 steps, an uncaught error (the promise
rejects), or running out of scripted responses (an artifact of the finite
input, reached only when the loop would have called the model again). -/
inductive LoopExit where
  | finalAnswer (content : Option String)
  | maxStepsReached
  | threw (msg : String)
  | modelExhausted
deriving DecidableEq, Repr

/-- The repetition test of `responseValidator` (lines 101-115): throw iff
the bracket-stripped and trimmed message is non-empty and equal to the
stored `prev_message`. -/
def repetitionThrown (prev msg : String) : Bool :=
  filteredOf msg ≠ "" && prev = filteredOf msg

/-- The guidance message the catch block of `performTask` pushes for a
repetition error (lines 615-620). -/
def guidanceText : String :=
  "Please try a different approach or search strategy."

/-- `executeAction` on an already-incremented state: the CAPTCHA
pre-check (throwing when a detected CAPTCHA is not solved), the tool
`switch` (throwing on an unknown tool or on a tool error), and the
command push on success. -/
def execAction (s : LoopState) (r : ModelResponse) (tc : ToolCall) :
    Except String LoopState :=
  if r.captchaDetected && !r.captchaSolveOk then
    Except.error "Failed to solve initial CAPTCHA"
  else
    match toolCmd tc with
    | none => Except.error ("Unknown tool: " ++ toolNameOf tc)
    | some cmd =>
      match r.toolError with
      | some m => Except.error m
      | none => Except.ok { s with commands := s.commands ++ [cmd] }

/-- Whether `if (response.content)` is taken (JavaScript truthiness:
`null` and the empty string are falsy). -/
def contentTruthy : Option String → Bool
  | some m => m ≠ ""
  | none => false

/-- The `while (stepCount < MAX_STEPS)` loop of `performTask`, driven by
the scripted model responses.  Per iteration: call the model; when the
content is truthy run the validator (a repetition error is caught and
answered with the guidance user message, consuming the iteration without
incrementing `stepCount`); a response without tool calls is the final
answer; otherwise `stepCount` is incremented and the first tool call is
executed, a tool error rejecting the whole task. -/
def runLoop : List ModelResponse → LoopState → LoopExit × LoopState
  | [], s =>
    if s.stepCount < 25 then (LoopExit.modelExhausted, s)
    else (LoopExit.maxStepsReached, s)
  | r :: rest, s =>
    if s.stepCount < 25 then
      let s1 : LoopState := { s with modelCalls := s.modelCalls + 1 }
      if contentTruthy r.content &&
          repetitionThrown s1.prevMessage ((r.content).getD "") then
        runLoop rest
          { s1 with messages := s1.messages ++ [Msg.userMsg guidanceText] }
      else
        let s2 : LoopState :=
          if contentTruthy r.content then
            { s1 with prevMessage := filteredOf ((r.content).getD "") }
          else s1
        match r.toolCall with
        | none =>
          if contentTruthy r.content then
            (LoopExit.finalAnswer r.content,
             { s2 with messages := s2.messages ++ [Msg.assistantMsg ((r.content).getD "")] })
          else
            (LoopExit.finalAnswer r.content, s2)
        | some tc =>
          let s3 : LoopState := { s2 with stepCount := s2.stepCount + 1 }
          match execAction s3 r tc with
          | Except.error m => (LoopExit.threw m, s3)
          | Except.ok s4 =>
            match r.screenshot with
            | some _ =>
              runLoop rest
                { s4 with messages := s4.messages ++ [Msg.screenshotMsg (toolNameOf tc)] }
            | none => runLoop rest s4
    else
      (LoopExit.maxStepsReached, s)

/-! ## The live-run supervisor (agentSocket.ts `handleAgentStart`,
lines 108-154).

`AIBrowserAgent.performTask` has no return statement: on every
non-throwing exit the awaited `result` is `undefined`.  The socket then
evaluates `result.steps` while assembling the `COMPLETED` update, which
raises a `TypeError`; the surrounding catch routes every live run through
`handleAgentError`, i.e. a `FAILED` update whose reason is the error
message. -/

/-- The value `await agent.performTask(...)` resolves with: `undefined`
(`none`) whenever the loop exits without throwing. -/
def performTaskValue : LoopExit → Option StepsObj
  | _ => none

/-- The V8 `TypeError` message for reading `steps` of `undefined`
(quotation marks of the original message elided). -/
def undefinedStepsMessage : String :=
  "Cannot read properties of undefined (reading steps)"

/-- JavaScript member access `result.steps` on a possibly-undefined
value. -/
def jsReadSteps : Option StepsObj → Except String (List Step)
  | some r => Except.ok r.steps
  | none => Except.error undefinedStepsMessage

/-- The terminal status and reason `handleAgentStart` persists for a run
whose loop finished with the given exit: a rejected `performTask` goes to
the catch directly; a resolved one fails on `result.steps` first and goes
to the same catch. -/
def liveRunOutcome (ex : LoopExit) : RunStatus × String :=
  match ex with
  | LoopExit.threw m => (RunStatus.FAILED, m)
  | e =>
    match jsReadSteps (performTaskValue e) with
    | Except.ok _ => (RunStatus.COMPLETED, "")
    | Except.error m => (RunStatus.FAILED, m)

/-! ## Start-message dispatch (C8).

Two versions of the live-run server exist in the sources: the primary
`agentSocket.ts` (`handleAgentStart`, lines 108-154), which performs no
duplicate-start check, and the variant appended in scriptRunnerSocket.ts
(lines 636-654), which rejects a `start_agent` for a run id that is still
in `activeAgents`. -/

/-- The supervisor-side effects of processing one `start_agent`
message. -/
inductive SupAction where
  | sendErrorMsg (msg : String)
  | sendExistingRun
  | updateStatus (st : RunStatus)
  | allocateAgent
  | startScreenshotPump
  | runTask
deriving DecidableEq, Repr

/-- Is an action an error reply? -/
def isErrorAction : SupAction → Bool
  | SupAction.sendErrorMsg _ => true
  | _ => false

/-- The primary `agentSocket.ts` `handleAgentStart` after the run record
has been fetched: replay terminal runs, otherwise unconditionally mark
INPROGRESS, allocate a fresh agent (and browser), start the screenshot
pump and run the task — regardless of the registered `activeAgents`. -/
def primaryAgentStart (activeRuns : List String) (runId : String)
    (status : RunStatus) : List SupAction :=
  if status = RunStatus.COMPLETED ∨ status = RunStatus.FAILED then
    [SupAction.sendExistingRun]
  else
    [SupAction.updateStatus RunStatus.INPROGRESS, SupAction.allocateAgent,
     SupAction.startScreenshotPump, SupAction.runTask]

/-- The variant `handleAgentStart` of scriptRunnerSocket.ts: before
anything else, a run id already present in `activeAgents` is rejected
with an error message and nothing is allocated. -/
def variantAgentStart (activeRuns : List String) (runId : String)
    (status : RunStatus) : List SupAction :=
  if runId ∈ activeRuns then
    [SupAction.sendErrorMsg "This agent run is already in progress"]
  else if status = RunStatus.COMPLETED ∨ status = RunStatus.FAILED then
    [SupAction.sendExistingRun]
  else
    [SupAction.updateStatus RunStatus.INPROGRESS, SupAction.allocateAgent,
     SupAction.runTask]

/-! ## Remaining definitions: reference decimal digits, annotator label
lists, and the concrete fixtures used by witnesses and counterexamples. -/

/-- Reference decimal digit list of a natural number (used to reason
about `index.toString()` badge texts). -/
def reprChars (n : Nat) : List Char :=
  if h : n < 10 then [Nat.digitChar n]
  else reprChars (n / 10) ++ [Nat.digitChar (n % 10)]
  termination_by n
  decreasing_by
    exact Nat.div_lt_self (by omega) (by omega)

/-- The labels the annotator creates when every element of the list
qualifies and has no identifier: one badge per element, numbered
consecutively from `idx`. -/
def labelIdxList (scrollY scrollX : Int) : Nat → List DElem → List LabelEl
  | _, [] => []
  | idx, e :: rest =>
    mkLabel scrollY scrollX idx e :: labelIdxList scrollY scrollX (idx + 1) rest

/-- A model response that always issues a (benign, succeeding) tool
call and no text content. -/
def benignToolResponse : ModelResponse :=
  { content := none
  , toolCall := some (ToolCall.handleClick "x")
  , captchaDetected := false
  , captchaSolveOk := true
  , toolError := none
  , screenshot := none }

/-- A benign environment for one decision-loop iteration. -/
def benignResponse (r : ModelResponse) : Prop :=
  r.content = none ∧ r.captchaDetected = false ∧ r.toolError = none ∧
    ∃ tc, r.toolCall = some tc ∧ (toolCmd tc).isSome = true

/-- Model turn whose whole text is one bracketed decorator. -/
def respBracketX : ModelResponse :=
  { benignToolResponse with content := some "[x]" }

/-- A second all-bracket turn, byte-identical to the first after
stripping. -/
def respBracketY : ModelResponse :=
  { benignToolResponse with content := some "[y]" }

/-- A turn repeating the previous content up to a bracketed decorator
(fixture). -/
def repeatedResp : ModelResponse :=
  { benignToolResponse with content := some "abc [note]" }

/-- A loop state whose previous validated message is `abc` (fixture). -/
def repeatedState : LoopState :=
  { initialState "t" with prevMessage := "abc" }

/-- A CAPTCHA-detection page whose very first element evaluation
throws. -/
def capFailPage : CapPage :=
  { queries := [[Except.error "boom"]] }

/-- A fresh, visible, clickable, text-less element (fixture). -/
def freshElem : DElem :=
  { eid := 0, textContent := "", value := "", ariaLabel := "", title := ""
  , placeholder := "", clickable := true, removable := true, visible := true
  , rectTop := 100, rectLeft := 10, highlightClass := false
  , dataHighlighted := false, inlineBorder := "old" }

/-- A one-element document (fixture). -/
def freshDom : Dom :=
  { elems := [freshElem], labels := [], hasHighlightStyle := false }

/-- A second fresh text-less element, 100px below the first (fixture). -/
def freshElem2 : DElem :=
  { freshElem with eid := 1, rectTop := 200, rectLeft := 10 }

/-- A two-element document for the numeric-label witness (fixture). -/
def freshDom2 : Dom :=
  { elems := [freshElem, freshElem2], labels := [], hasHighlightStyle := false }

/-- A highlighted login button (fixture). -/
def loginElem : DElem :=
  { freshElem with
      eid := 2, textContent := "Login", highlightClass := true,
      dataHighlighted := true }

/-- A page whose highlighted inventory is the login button (fixture). -/
def loginDom : Dom :=
  { elems := [loginElem], labels := [], hasHighlightStyle := true }

theorem reprChars_lt {n : Nat} (h : n < 10) :
    reprChars n = [Nat.digitChar n] := by
  rw [reprChars, dif_pos h]

theorem reprChars_ge {n : Nat} (h : ¬ n < 10) :
    reprChars n = reprChars (n / 10) ++ [Nat.digitChar (n % 10)] := by
  conv_lhs => rw [reprChars]
  rw [dif_neg h]

theorem reprChars_ne_nil (n : Nat) : reprChars n ≠ [] := by
  by_cases h : n < 10
  · rw [reprChars_lt h]
    simp
  · rw [reprChars_ge h]
    simp

theorem reprChars_all_digits (n : Nat) : (reprChars n).all Char.isDigit = true := by
  induction n using Nat.strong_induction_on with
  | _ n ih =>
    have hd : ∀ m, m < 10 → (Nat.digitChar m).isDigit = true := by decide
    by_cases h : n < 10
    · rw [reprChars_lt h]
      simp [hd n h]
    · rw [reprChars_ge h]
      have := ih (n / 10) (Nat.div_lt_self (by omega) (by omega))
      simp only [List.all_append, this, Bool.true_and, List.all_cons, List.all_nil,
        Bool.and_true]
      exact hd (n % 10) (Nat.mod_lt _ (by omega))

theorem toDigitsCore_eq_reprChars (n : Nat) :
    ∀ (f : Nat) (acc : List Char), n < f →
      Nat.toDigitsCore 10 f n acc = reprChars n ++ acc := by
  induction n using Nat.strong_induction_on with
  | _ n ih =>
    intro f acc hf
    match f with
    | 0 => omega
    | f + 1 =>
      rw [Nat.toDigitsCore]
      by_cases h0 : n / 10 = 0
      · have hn : n < 10 := by omega
        rw [if_pos h0, reprChars_lt hn, Nat.mod_eq_of_lt hn]
        simp
      · have hn : 10 ≤ n := by
          by_contra hc
          exact h0 (Nat.div_eq_of_lt (by omega))
        rw [if_neg h0, reprChars_ge (show ¬ n < 10 by omega)]
        have hlt : n / 10 < n := Nat.div_lt_self (by omega) (by omega)
        have hflt : n / 10 < f := by omega
        rw [ih (n / 10) hlt f (Nat.digitChar (n % 10) :: acc) hflt]
        simp

theorem natRepr_eq_reprChars (n : Nat) : Nat.repr n = (reprChars n).asString := by
  have := toDigitsCore_eq_reprChars n (n + 1) [] (by omega)
  simp only [Nat.repr, Nat.toDigits, this, List.append_nil]

theorem digitChar_inj_lt :
    ∀ a, a < 10 → ∀ b, b < 10 → Nat.digitChar a = Nat.digitChar b → a = b := by
  decide

theorem reprChars_injective :
    ∀ m n : Nat, reprChars m = reprChars n → m = n := by
  intro m
  induction m using Nat.strong_induction_on with
  | _ m ih =>
    intro n h
    by_cases hm : m < 10 <;> by_cases hn : n < 10
    · rw [reprChars_lt hm, reprChars_lt hn] at h
      exact digitChar_inj_lt m hm n hn (List.cons.injEq _ _ _ _ ▸ h |>.1)
    · exfalso
      rw [reprChars_lt hm, reprChars_ge hn] at h
      have hlen := congrArg List.length h
      simp only [List.length_singleton, List.length_append, List.length_cons,
        List.length_nil] at hlen
      exact reprChars_ne_nil (n / 10) (List.length_eq_zero.mp (by omega))
    · exfalso
      rw [reprChars_ge hm, reprChars_lt hn] at h
      have hlen := congrArg List.length h
      simp only [List.length_singleton, List.length_append, List.length_cons,
        List.length_nil] at hlen
      exact reprChars_ne_nil (m / 10) (List.length_eq_zero.mp (by omega))
    · rw [reprChars_ge hm, reprChars_ge hn] at h
      have hrev := congrArg List.reverse h
      simp only [List.reverse_append, List.reverse_cons, List.reverse_nil,
        List.nil_append, List.singleton_append, List.cons.injEq] at hrev
      obtain ⟨hdig, htail⟩ := hrev
      have hmod : m % 10 = n % 10 :=
        digitChar_inj_lt (m % 10) (Nat.mod_lt _ (by omega)) (n % 10)
          (Nat.mod_lt _ (by omega)) hdig
      have hdiv : m / 10 = n / 10 := by
        apply ih (m / 10) (Nat.div_lt_self (by omega) (by omega))
        exact List.reverse_injective htail
      have h1 := Nat.div_add_mod m 10
      have h2 := Nat.div_add_mod n 10
      omega

theorem natRepr_injective {m n : Nat} (h : Nat.repr m = Nat.repr n) : m = n := by
  apply reprChars_injective
  have h1 := natRepr_eq_reprChars m
  have h2 := natRepr_eq_reprChars n
  rw [h1, h2] at h
  exact congrArg String.data h

theorem natRepr_ne_empty (n : Nat) : Nat.repr n ≠ "" := by
  rw [natRepr_eq_reprChars]
  intro h
  exact reprChars_ne_nil n (congrArg String.data h)

theorem natRepr_numeric (n : Nat) : isNumericId (Nat.repr n) = true := by
  simp only [isNumericId, Bool.and_eq_true, decide_eq_true_eq]
  refine ⟨by simpa using natRepr_ne_empty n, ?_⟩
  have := reprChars_all_digits n
  rw [natRepr_eq_reprChars]
  simpa [List.all_eq_true] using this

/-! ## Generic list helpers -/

theorem filterMap_flatMap {α β γ : Type} (g : β → Option γ) :
    ∀ (l : List α) (f : α → List β),
      (l.flatMap f).filterMap g = l.flatMap (fun a => (f a).filterMap g) := by
  intro l f
  induction l with
  | nil => rfl
  | cons a rest ih =>
    simp only [List.flatMap_cons, List.filterMap_append, ih]

theorem find?_first_at {α : Type} (p : α → Bool) :
    ∀ (l : List α) (j : Nat) (hj : j < l.length),
      (∀ i, i < j → ∀ hi : i < l.length, p (l.get ⟨i, hi⟩) = false) →
      p (l.get ⟨j, hj⟩) = true →
      l.find? p = some (l.get ⟨j, hj⟩) := by
  intro l
  induction l with
  | nil => intro j hj; simp at hj
  | cons a rest ih =>
    intro j hj hbefore hat
    match j with
    | 0 =>
      simp only [List.get] at hat
      simp [List.find?, hat]
    | j + 1 =>
      have ha : p a = false := hbefore 0 (by omega) (by simp)
      simp only [List.get] at hat ⊢
      simp only [List.find?, ha]
      exact ih j (by simpa using hj)
        (fun i hi hi2 => hbefore (i + 1) (by omega) (by simpa using hi2)) hat

theorem find?_eq_some_of_unique {α : Type} (p : α → Bool) :
    ∀ (l : List α) (e : α), e ∈ l → p e = true →
      (∀ x ∈ l, p x = true → x = e) →
      l.find? p = some e := by
  intro l
  induction l with
  | nil => intro e he; simp at he
  | cons a rest ih =>
    intro e he hp huniq
    by_cases ha : p a = true
    · have hae : a = e := huniq a (by simp) ha
      subst hae
      simp [List.find?, ha]
    · have hne : e ≠ a := fun h => ha (h ▸ hp)
      have he2 : e ∈ rest := by
        rcases List.mem_cons.mp he with h | h
        · exact absurd h hne
        · exact h
      simp only [List.find?, Bool.not_eq_true] at ha ⊢
      rw [ha]
      exact ih e he2 hp (fun x hx hpx => huniq x (List.mem_cons_of_mem a hx) hpx)

theorem scriptActionLines_cons (c : Cmd) (rest : List Cmd) :
    scriptActionLines (c :: rest) = cmdLines c ++ scriptActionLines rest := by
  cases c <;>
    simp [scriptActionLines, scriptBody, cmdLines, List.filter_cons, List.filter_append]

/-! ## Claims -/

/-- C2: during a live run `executeAction` records a `solveCaptcha` entry
whenever the `handle_captcha` tool is dispatched, but the replay script
persisted by `getExecutedCommands` renders no line for it: its command
lines are exactly those of the non-CAPTCHA commands, in execution order,
and every non-CAPTCHA command renders at least one line. -/
theorem C2_trace_excludes_solveCaptcha :
    ∀ cmds : List Cmd,
      scriptActionLines cmds
        = (cmds.filter (fun c => c ≠ Cmd.solveCaptcha)).flatMap cmdLines
      ∧ cmdLines Cmd.solveCaptcha = []
      ∧ toolCmd ToolCall.handleCaptcha = some Cmd.solveCaptcha
      ∧ (∀ u, cmdLines (Cmd.goto u) ≠ [])
      ∧ (∀ s, cmdLines (Cmd.click s) ≠ [])
      ∧ (∀ s v, cmdLines (Cmd.typeCmd s v) ≠ [])
      ∧ (∀ s v, cmdLines (Cmd.typeAndEnter s v) ≠ [])
      ∧ cmdLines Cmd.scroll ≠ []
      ∧ cmdLines Cmd.back ≠ [] := by
  intro cmds
  refine ⟨?_, rfl, rfl, by intro u; simp [cmdLines], by intro s; simp [cmdLines],
    by intro s v; simp [cmdLines], by intro s v; simp [cmdLines],
    by simp [cmdLines], by simp [cmdLines]⟩
  induction cmds with
  | nil => rfl
  | cons c rest ih =>
    rw [scriptActionLines_cons, ih, List.filter_cons]
    by_cases hc : c = Cmd.solveCaptcha
    · subst hc
      simp [cmdLines]
    · simp [hc]

/-- C10: `updateRunStatus` writes only `status` and `completed_at` for an
`INPROGRESS` update (with `completed_at` null), leaving the stored steps
and commands untouched; the `{steps, finalAnswer}` object and the
commands column are written exactly for `COMPLETED`/`FAILED`, defaulting
to the empty list and empty string. -/
theorem C10_updateRunStatus_frame :
    ∀ (row : RunRow) (now : String) (steps : Option (List Step))
      (fa : Option String) (cmds : Option (List Cmd)),
      (mkUpdateData RunStatus.INPROGRESS now steps fa cmds).stepsField = none
      ∧ (mkUpdateData RunStatus.INPROGRESS now steps fa cmds).commandsField = none
      ∧ (mkUpdateData RunStatus.INPROGRESS now steps fa cmds).completed_at = none
      ∧ applyUpdate row (mkUpdateData RunStatus.INPROGRESS now steps fa cmds)
          = { row with status := RunStatus.INPROGRESS, completed_at := none }
      ∧ (applyUpdate row (mkUpdateData RunStatus.INPROGRESS now steps fa cmds)).steps
          = row.steps
      ∧ (applyUpdate row (mkUpdateData RunStatus.INPROGRESS now steps fa cmds)).commands
          = row.commands
      ∧ (mkUpdateData RunStatus.PENDING now steps fa cmds).stepsField = none
      ∧ (mkUpdateData RunStatus.PENDING now steps fa cmds).commandsField = none
      ∧ (mkUpdateData RunStatus.COMPLETED now steps fa cmds).stepsField
          = some { steps := steps.getD [], finalAnswer := fa.getD "" }
      ∧ (mkUpdateData RunStatus.COMPLETED now steps fa cmds).commandsField = some cmds
      ∧ (mkUpdateData RunStatus.COMPLETED now steps fa cmds).completed_at = some now
      ∧ (mkUpdateData RunStatus.FAILED now steps fa cmds).stepsField
          = some { steps := steps.getD [], finalAnswer := fa.getD "" }
      ∧ (mkUpdateData RunStatus.FAILED now steps fa cmds).commandsField = some cmds
      ∧ (mkUpdateData RunStatus.FAILED now steps fa cmds).completed_at = some now := by
  intro row now steps fa cmds
  refine ⟨rfl, rfl, rfl, rfl, rfl, rfl, rfl, rfl, rfl, rfl, rfl, rfl, rfl, rfl⟩

/-- C9: `detectCaptcha` never propagates an exception: whenever the
scan inside the `try` block throws, the `catch` yields `false`, so a
detection failure reads as the absence of a CAPTCHA. -/
theorem C9_detectCaptcha_no_throw :
    ∀ (p : CapPage) (msg : String),
      detectCaptchaEval p = Except.error msg → detectCaptcha p = false := by
  intro p msg h
  simp [detectCaptcha, h]

/-- Witness for C9 at a page whose first element evaluation throws. -/
theorem C9_detectCaptcha_no_throw_witness :
    detectCaptchaEval capFailPage = Except.error "boom"
    ∧ detectCaptcha capFailPage = false :=
  ⟨rfl, C9_detectCaptcha_no_throw capFailPage "boom" rfl⟩

/-- C4: code bug.  With a CAPTCHA detected before a `Click` step that
then executes without error, the websocket replay loop
(`handleScriptStart`) emits `captcha_detected`, dispatches the command
and emits `captcha_solved` — without ever invoking the CAPTCHA solver
(no `solverRun` action occurs), contradicting the claim that the CAPTCHA
is auto-solved before dispatch and `captcha_solved` is emitted only on
an actual successful solve. -/
theorem C4_replay_captcha_solved_without_solver :
    replayEvents [SCmd.click "Login"] (fun _ => true) (fun _ => none) "done"
      = [REvent.stepStarted 1, REvent.captchaDetected,
         REvent.dispatch (SCmd.click "Login"), REvent.captchaSolved,
         REvent.stepCompleted 1, REvent.completionMsg "done"]
    ∧ REvent.solverRun
        ∉ replayEvents [SCmd.click "Login"] (fun _ => true) (fun _ => none) "done"
    ∧ REvent.captchaSolved
        ∈ replayEvents [SCmd.click "Login"] (fun _ => true) (fun _ => none) "done" := by
  refine ⟨rfl, by decide, by decide⟩

/-- C8: counterexample.  In the primary live server (agentSocket.ts),
with the agent of run `r1` still registered as active and the run in
`INPROGRESS`, a second `start_agent` for `r1` is not rejected: no error
reply is produced and a fresh agent (and browser) is allocated. -/
theorem C8_second_start_counterexample :
    ("r1" ∈ ["r1"])
    ∧ SupAction.allocateAgent ∈ primaryAgentStart ["r1"] "r1" RunStatus.INPROGRESS
    ∧ (primaryAgentStart ["r1"] "r1" RunStatus.INPROGRESS).any isErrorAction = false := by
  refine ⟨by decide, by decide, by decide⟩

/-- C8 (amended): only the variant server of scriptRunnerSocket.ts
rejects a duplicate start — when the run id is still registered it
answers with the error message and allocates nothing — while the primary
agentSocket.ts `handleAgentStart` performs no duplicate check and, for a
non-terminal run, allocates another agent without any error reply. -/
theorem C8_second_start_amended :
    ∀ (active : List String) (runId : String) (status : RunStatus),
      runId ∈ active →
      variantAgentStart active runId status
          = [SupAction.sendErrorMsg "This agent run is already in progress"]
      ∧ SupAction.allocateAgent ∉ variantAgentStart active runId status
      ∧ (status = RunStatus.INPROGRESS →
          SupAction.allocateAgent ∈ primaryAgentStart active runId status
          ∧ (primaryAgentStart active runId status).any isErrorAction = false) := by
  intro active runId status h
  refine ⟨?_, ?_, ?_⟩
  · simp [variantAgentStart, h]
  · simp [variantAgentStart, h]
  · intro hs
    subst hs
    exact ⟨by simp [primaryAgentStart], by simp [primaryAgentStart, isErrorAction]⟩

/-- Witness for C8 (amended) at a concrete session state. -/
theorem C8_second_start_amended_witness :
    variantAgentStart ["r1"] "r1" RunStatus.INPROGRESS
        = [SupAction.sendErrorMsg "This agent run is already in progress"]
    ∧ SupAction.allocateAgent ∉ variantAgentStart ["r1"] "r1" RunStatus.INPROGRESS
    ∧ SupAction.allocateAgent ∈ primaryAgentStart ["r1"] "r1" RunStatus.INPROGRESS
    ∧ (primaryAgentStart ["r1"] "r1" RunStatus.INPROGRESS).any isErrorAction = false := by
  have h := C8_second_start_amended ["r1"] "r1" RunStatus.INPROGRESS (by decide)
  exact ⟨h.1, h.2.1, (h.2.2 rfl).1, (h.2.2 rfl).2⟩

/-! ## Annotator lemmas (C7) -/

theorem stripHighlight_class (e : DElem) : (stripHighlight e).highlightClass = false := by
  unfold stripHighlight
  split
  · rfl
  · next h => simpa using h

theorem delem_unset_eq (u : DElem) (h1 : u.highlightClass = false)
    (h2 : u.dataHighlighted = false) :
    { u with highlightClass := false, dataHighlighted := false } = u := by
  cases u
  simp_all

theorem qualifies_data {e : DElem} (h : qualifies e = true) :
    e.dataHighlighted = false := by
  simp only [qualifies, Bool.and_eq_true, Bool.not_eq_true'] at h
  exact h.1.2

theorem strip_hiStep_strip (e : DElem) :
    stripHighlight (hiStep (stripHighlight e)) = stripHighlight e := by
  have hc := stripHighlight_class e
  by_cases hq : qualifies (stripHighlight e) = true
  · have hd := qualifies_data hq
    rw [hiStep, if_pos hq]
    have hm : stripHighlight (markHighlighted (stripHighlight e))
        = { stripHighlight e with
              highlightClass := false, dataHighlighted := false } := rfl
    rw [hm, delem_unset_eq _ hc hd]
  · rw [hiStep, if_neg hq, stripHighlight, if_neg (by simp [hc])]

theorem dom_ext {a b : Dom} (h1 : a.elems = b.elems) (h2 : a.labels = b.labels)
    (h3 : a.hasHighlightStyle = b.hasHighlightStyle) : a = b := by
  cases a; cases b; simp_all

theorem annotate_elems (sy sx : Int) (d : Dom) :
    (annotate sy sx d).elems = (d.elems.map stripHighlight).map hiStep := rfl

theorem annotate_labels (sy sx : Int) (d : Dom) :
    (annotate sy sx d).labels = hiLabels sy sx (d.elems.map stripHighlight) 1 := rfl

theorem map_pointwise {α β : Type} {f g : α → β} :
    ∀ l : List α, (∀ a ∈ l, f a = g a) → l.map f = l.map g := by
  intro l
  induction l with
  | nil => intro _; rfl
  | cons a rest ih =>
    intro h
    simp only [List.map_cons, h a (by simp)]
    rw [ih (fun x hx => h x (List.mem_cons_of_mem a hx))]

theorem strip_annotate_elems (sy sx : Int) (d : Dom) :
    (annotate sy sx d).elems.map stripHighlight = d.elems.map stripHighlight := by
  rw [annotate_elems, List.map_map, List.map_map]
  exact map_pointwise d.elems (fun e _ => strip_hiStep_strip e)

/-- C7: corrected.  A second `Annotate()` first clears, so
`Annotate();Annotate()` produces the same DOM annotations as a single
`Annotate()`, and `Annotate();Clear()` removes every badge and the
injected stylesheet — but `REMOVE_HIGHLIGHTS_SCRIPT` touches neither the
`highlighted-element` class nor the `data-highlighted` attribute, so
those remain on the annotated elements (the residue the next
`Annotate()` removes). -/
theorem C7_annotator_amended :
    ∀ (sy sx : Int) (d : Dom),
      annotate sy sx (annotate sy sx d) = annotate sy sx d
      ∧ (clearHighlights (annotate sy sx d)).labels = []
      ∧ (clearHighlights (annotate sy sx d)).hasHighlightStyle = false
      ∧ (clearHighlights (annotate sy sx d)).elems.map
            (fun e => (e.highlightClass, e.dataHighlighted))
          = (annotate sy sx d).elems.map
            (fun e => (e.highlightClass, e.dataHighlighted)) := by
  intro sy sx d
  refine ⟨?_, rfl, rfl, ?_⟩
  · refine dom_ext ?_ ?_ rfl
    · rw [show (annotate sy sx (annotate sy sx d)).elems
            = ((annotate sy sx d).elems.map stripHighlight).map hiStep from rfl,
        strip_annotate_elems, ← annotate_elems]
    · rw [show (annotate sy sx (annotate sy sx d)).labels
            = hiLabels sy sx ((annotate sy sx d).elems.map stripHighlight) 1 from rfl,
        strip_annotate_elems, ← annotate_labels]
  · rw [show (clearHighlights (annotate sy sx d)).elems
        = (annotate sy sx d).elems.map
            (fun e => if e.removable then { e with inlineBorder := "" } else e) from rfl,
      List.map_map]
    refine map_pointwise _ (fun e _ => ?_)
    by_cases hr : e.removable = true <;> simp [hr]

/-- C7: counterexample to the claim as stated.  On a one-element page,
after `Annotate();Clear()` the element still carries the
`highlighted-element` class and the `data-highlighted` attribute, so the
claimed absence of residue fails (a badge had been created, so the
annotation was not vacuous). -/
theorem C7_annotator_clear_counterexample :
    (clearHighlights (annotate 0 0 freshDom)).elems.map DElem.highlightClass = [true]
    ∧ (clearHighlights (annotate 0 0 freshDom)).elems.map DElem.dataHighlighted = [true]
    ∧ (annotate 0 0 freshDom).labels ≠ [] := by
  refine ⟨rfl, rfl, by decide⟩

/-! ## Replay lemmas (C3) -/

theorem replayAux_ok_cons (detect : Nat → Bool) (execErr : Nat → Option String)
    (c : SCmd) (rest : List SCmd) (i : Nat) (h : execErr i = none) :
    replayAux detect execErr (c :: rest) i
      = (replayBlock i c (detect i) ++ (replayAux detect execErr rest (i + 1)).1,
         (replayAux detect execErr rest (i + 1)).2) := by
  simp [replayAux, h, replayBlock, List.append_assoc]

theorem replayAux_ok (detect : Nat → Bool) (execErr : Nat → Option String) :
    ∀ (steps : List SCmd) (i : Nat),
      (∀ j, j < steps.length → execErr (i + j) = none) →
      replayAux detect execErr steps i
        = ((steps.enumFrom i).flatMap (fun p => replayBlock p.1 p.2 (detect p.1)),
           true) := by
  intro steps
  induction steps with
  | nil => intro i _; rfl
  | cons c rest ih =>
    intro i h
    have h0 : execErr i = none := by simpa using h 0 (by simp)
    have hrest : ∀ j, j < rest.length → execErr (i + 1 + j) = none := by
      intro j hj
      have := h (j + 1) (by simpa using Nat.succ_lt_succ hj)
      simpa [Nat.add_assoc, Nat.add_comm 1 j] using this
    rw [replayAux_ok_cons detect execErr c rest i h0, ih (i + 1) hrest]
    simp [List.enumFrom]

theorem replayEvents_ok (steps : List SCmd) (detect : Nat → Bool)
    (execErr : Nat → Option String) (analysis : String)
    (h : ∀ i, i < steps.length → execErr i = none) :
    replayEvents steps detect execErr analysis
      = (steps.enum.flatMap fun p => replayBlock p.1 p.2 (detect p.1))
          ++ [REvent.completionMsg analysis] := by
  unfold replayEvents
  rw [replayAux_ok detect execErr steps 0 (fun j hj => by simpa using h j hj)]
  rfl

theorem replayBlock_dispatch (i : Nat) (c : SCmd) (det : Bool) :
    (replayBlock i c det).filterMap dispatchOf = [c] := by
  cases det <;> rfl

theorem replayBlock_started (i : Nat) (c : SCmd) (det : Bool) :
    (replayBlock i c det).filterMap startedOf = [i + 1] := by
  cases det <;> rfl

theorem replayBlock_completed (i : Nat) (c : SCmd) (det : Bool) :
    (replayBlock i c det).filterMap completedOf = [i + 1] := by
  cases det <;> rfl

theorem enumFrom_flatMap_snd {α : Type} :
    ∀ (l : List α) (i : Nat), (List.enumFrom i l).flatMap (fun p => [p.2]) = l := by
  intro l
  induction l with
  | nil => intro i; rfl
  | cons a rest ih =>
    intro i
    simp only [List.enumFrom, List.flatMap_cons, ih (i + 1), List.singleton_append]

theorem enumFrom_flatMap_idx {α : Type} :
    ∀ (l : List α) (i : Nat),
      (List.enumFrom i l).flatMap (fun p => [p.1 + 1]) = List.range' (i + 1) l.length := by
  intro l
  induction l with
  | nil => intro i; rfl
  | cons a rest ih =>
    intro i
    simp only [List.enumFrom, List.flatMap_cons, ih (i + 1), List.length_cons,
      List.range'_succ, List.singleton_append]

/-- C3: for a replay whose commands all execute without error, the event
trace is exactly one block per trace command — `step_started(i+1)`, the
CAPTCHA pre-check events, the dispatch of the stored command, then
`step_completed(i+1)` — concatenated in trace order and followed by the
completion message.  Consequently the dispatched commands equal the
stored trace element-for-element (none of which is a CAPTCHA command
when the stored trace, as persisted, contains none), each
`step_started(i)` precedes its dispatch and `step_completed(i)` follows
it, and the `step_started` numbers occur in the order `1..n`. -/
theorem C3_replay_dispatch_order :
    ∀ (steps : List SCmd) (detect : Nat → Bool) (execErr : Nat → Option String)
      (analysis : String),
      (∀ i, i < steps.length → execErr i = none) →
      replayEvents steps detect execErr analysis
        = (steps.enum.flatMap fun p => replayBlock p.1 p.2 (detect p.1))
            ++ [REvent.completionMsg analysis]
      ∧ (replayEvents steps detect execErr analysis).filterMap dispatchOf = steps
      ∧ (replayEvents steps detect execErr analysis).filterMap startedOf
          = List.range' 1 steps.length
      ∧ (replayEvents steps detect execErr analysis).filterMap completedOf
          = List.range' 1 steps.length := by
  intro steps detect execErr analysis h
  have he := replayEvents_ok steps detect execErr analysis h
  refine ⟨he, ?_, ?_, ?_⟩
  · rw [he, List.filterMap_append, filterMap_flatMap]
    simp only [replayBlock_dispatch]
    have := enumFrom_flatMap_snd steps 0
    simp only [List.enum] at *
    simp [this, dispatchOf]
  · rw [he, List.filterMap_append, filterMap_flatMap]
    simp only [replayBlock_started]
    have := enumFrom_flatMap_idx steps 0
    simp only [List.enum] at *
    simp [this, startedOf]
  · rw [he, List.filterMap_append, filterMap_flatMap]
    simp only [replayBlock_completed]
    have := enumFrom_flatMap_idx steps 0
    simp only [List.enum] at *
    simp [this, completedOf]

/-- Witness for C3 on a two-command trace with no CAPTCHA and no
errors. -/
theorem C3_replay_dispatch_order_witness :
    replayEvents [SCmd.navigate "https://example.com", SCmd.scroll]
        (fun _ => false) (fun _ => none) "ok"
      = [REvent.stepStarted 1, REvent.dispatch (SCmd.navigate "https://example.com"),
         REvent.stepCompleted 1, REvent.stepStarted 2, REvent.dispatch SCmd.scroll,
         REvent.stepCompleted 2, REvent.completionMsg "ok"]
    ∧ (replayEvents [SCmd.navigate "https://example.com", SCmd.scroll]
        (fun _ => false) (fun _ => none) "ok").filterMap dispatchOf
      = [SCmd.navigate "https://example.com", SCmd.scroll] := by
  have h := C3_replay_dispatch_order
    [SCmd.navigate "https://example.com", SCmd.scroll]
    (fun _ => false) (fun _ => none) "ok" (fun i _ => rfl)
  exact ⟨by rw [h.1]; rfl, h.2.1⟩

/-! ## Click-resolution lemmas (C5) -/

theorem jsLower_eq_empty {s : String} : jsLower s = "" ↔ s = "" := by
  constructor
  · intro h
    have hd : s.data.map Char.toLower = [] := congrArg String.data h
    have hnil : s.data = [] := List.map_eq_nil_iff.mp hd
    cases s
    simp_all
  · intro h
    subst h
    rfl

theorem stripHighlight_fresh {e : DElem} (h : e.highlightClass = false) :
    stripHighlight e = e := by
  rw [stripHighlight, if_neg (by simp [h])]

theorem markHighlighted_text (e : DElem) :
    getElementIdentifier (markHighlighted e) = getElementIdentifier e := rfl

theorem hiLabels_all (sy sx : Int) :
    ∀ (l : List DElem) (idx : Nat),
      (∀ e ∈ l, qualifies e = true) →
      (∀ e ∈ l, getElementIdentifier e = "") →
      hiLabels sy sx l idx = labelIdxList sy sx idx l := by
  intro l
  induction l with
  | nil => intro idx _ _; rfl
  | cons e rest ih =>
    intro idx hq ht
    rw [hiLabels, if_pos (hq e (by simp)), if_pos (ht e (by simp)),
      ih (idx + 1) (fun x hx => hq x (List.mem_cons_of_mem e hx))
        (fun x hx => ht x (List.mem_cons_of_mem e hx))]
    rfl

theorem labelIdxList_append (sy sx : Int) :
    ∀ (xs ys : List DElem) (idx : Nat),
      labelIdxList sy sx idx (xs ++ ys)
        = labelIdxList sy sx idx xs ++ labelIdxList sy sx (idx + xs.length) ys := by
  intro xs
  induction xs with
  | nil => intro ys idx; simp [labelIdxList]
  | cons x rest ih =>
    intro ys idx
    show mkLabel sy sx idx x :: labelIdxList sy sx (idx + 1) (rest ++ ys)
        = (mkLabel sy sx idx x :: labelIdxList sy sx (idx + 1) rest)
          ++ labelIdxList sy sx (idx + (rest.length + 1)) ys
    rw [List.cons_append]
    congr 1
    rw [ih ys (idx + 1)]
    have harith : idx + 1 + rest.length = idx + (rest.length + 1) := by omega
    rw [harith]

theorem labelIdxList_text (sy sx : Int) :
    ∀ (xs : List DElem) (idx : Nat) (lab : LabelEl),
      lab ∈ labelIdxList sy sx idx xs →
      ∃ j, j < xs.length ∧ lab.ltext = Nat.repr (idx + j) := by
  intro xs
  induction xs with
  | nil => intro idx lab h; simp [labelIdxList] at h
  | cons x rest ih =>
    intro idx lab h
    rcases List.mem_cons.mp h with h1 | h2
    · exact ⟨0, by simp, by simp [h1, mkLabel]⟩
    · obtain ⟨j, hj, hr⟩ := ih (idx + 1) lab h2
      exact ⟨j + 1, by simpa using Nat.succ_lt_succ hj,
        by rw [hr]; congr 1; omega⟩

theorem findByLabel_skip (hi : List DElem) (lbl : String) :
    ∀ (ls1 ls2 : List LabelEl), (∀ lab ∈ ls1, lab.ltext ≠ lbl) →
      findElementByLabel hi lbl (ls1 ++ ls2) = findElementByLabel hi lbl ls2 := by
  intro ls1
  induction ls1 with
  | nil => intro ls2 _; rfl
  | cons lab rest ih =>
    intro ls2 h
    rw [List.cons_append, findElementByLabel, if_neg (h lab (by simp))]
    exact ih ls2 (fun x hx => h x (List.mem_cons_of_mem lab hx))

theorem findByLabel_hit (hi : List DElem) (lbl : String) (lab : LabelEl)
    (ls : List LabelEl) (e : DElem) (h : lab.ltext = lbl)
    (hn : labelNear hi lab = some e) :
    findElementByLabel hi lbl (lab :: ls) = some e := by
  rw [findElementByLabel, if_pos h, hn]

/-- C5: `handle_click` resolution.  Text search runs first and wins when
it matches; the numbered-label fallback is consulted exactly when no
text match exists and the identifier is purely numeric; with a unique
(case-insensitive) textual identifier the unique matching highlighted
element is clicked; on a page whose clickable inventory carries no
textual identifier at all (so the annotator numbered every element),
`Click(k)` resolves to the k-th annotated element in document order
(elements geometrically separated, page at scroll origin); and when
nothing matches the tool fails with an error. -/
theorem C5_click_resolution :
    ∀ (page : Dom) (std : List (List DElem)) (id : String),
      (∀ e, findClickableElement (page.elems.filter fun x => x.highlightClass)
              std id = some e →
            clickRun page std id = Except.ok e)
      ∧ (findClickableElement (page.elems.filter fun x => x.highlightClass)
              std id = none →
          isNumericId id = false →
          clickRun page std id
            = Except.error ("No clickable element found with text or label: " ++ id))
      ∧ (findClickableElement (page.elems.filter fun x => x.highlightClass)
              std id = none →
          findElementByLabel (page.elems.filter fun x => x.highlightClass)
              id page.labels = none →
          clickRun page std id
            = Except.error ("No clickable element found with text or label: " ++ id))
      ∧ (∀ e, id ≠ "" → e ∈ page.elems.filter (fun x => x.highlightClass) →
          jsLower (elementText e) = jsLower id →
          (∀ x ∈ page.elems.filter (fun x => x.highlightClass),
              jsLower (elementText x) = jsLower id → x = e) →
          clickRun page std id = Except.ok e)
      ∧ (∀ (l : List DElem) (std2 : List (List DElem)) (labs0 : List LabelEl)
            (style0 : Bool) (k : Nat),
          (∀ e ∈ l, e.highlightClass = false ∧ e.dataHighlighted = false) →
          (∀ e ∈ l, e.clickable = true ∧ e.visible = true) →
          (∀ e ∈ l, getElementIdentifier e = "") →
          (∀ g ∈ std2, ∀ e ∈ g, getElementIdentifier e = "") →
          (∀ i, ∀ hi : i < l.length, ∀ j, ∀ hj : j < l.length, i ≠ j →
              5 ≤ ((l.get ⟨i, hi⟩).rectTop - (l.get ⟨j, hj⟩).rectTop).natAbs
              ∨ 5 ≤ ((l.get ⟨i, hi⟩).rectLeft - (l.get ⟨j, hj⟩).rectLeft).natAbs) →
          ∀ hk1 : 1 ≤ k, ∀ hk2 : k ≤ l.length,
            clickRun (annotate 0 0
                { elems := l, labels := labs0, hasHighlightStyle := style0 })
                std2 (Nat.repr k)
              = Except.ok (markHighlighted (l.get
                  ⟨k - 1, Nat.lt_of_lt_of_le (Nat.sub_lt hk1 Nat.one_pos) hk2⟩))) := by
  intro page std id
  refine ⟨?_, ?_, ?_, ?_, ?_⟩
  · intro e h
    simp only [clickRun, h]
  · intro hnone hnum
    simp only [clickRun, hnone, hnum, Bool.false_eq_true, if_false]
  · intro hnone hlbl
    by_cases hnum : isNumericId id = true
    · simp only [clickRun, hnone, hnum, if_true, hlbl]
    · have hnum' : isNumericId id = false := by simpa using hnum
      simp only [clickRun, hnone, hnum', Bool.false_eq_true, if_false]
  · intro e hid hmem hmatch huniq
    have hetext : elementText e ≠ "" := by
      intro h0
      apply hid
      apply jsLower_eq_empty.mp
      rw [← hmatch, h0]
      rfl
    have hpe : exactMatch id e = true := by
      simp [exactMatch, hetext, hid, hmatch]
    have hfind : (page.elems.filter fun x => x.highlightClass).find?
        (exactMatch id) = some e := by
      apply find?_eq_some_of_unique _ _ e hmem hpe
      intro x hx hpx
      have : jsLower (elementText x) = jsLower id := by
        simp only [exactMatch, Bool.and_eq_true, decide_eq_true_eq] at hpx
        exact hpx.2
      exact huniq x hx this
    have : findClickableElement (page.elems.filter fun x => x.highlightClass)
        std id = some e := by
      rw [findClickableElement, if_neg hid, hfind]
    simp only [clickRun, this]
  · intro l std2 labs0 style0 k hfresh hq ht hstd hsep hk1 hk2
    have hqual : ∀ e ∈ l, qualifies e = true := by
      intro e he
      simp [qualifies, (hq e he).1, (hq e he).2, (hfresh e he).2]
    have h1 : l.map stripHighlight = l := by
      rw [show l.map stripHighlight
          = l.map (fun e => e) from map_pointwise l
            (fun e he => stripHighlight_fresh (hfresh e he).1)]
      exact List.map_id l
    have h2 : (annotate 0 0
        { elems := l, labels := labs0, hasHighlightStyle := style0 }).elems
        = l.map markHighlighted := by
      rw [annotate_elems]
      simp only [h1]
      exact map_pointwise l (fun e he => by rw [hiStep, if_pos (hqual e he)])
    have h3 : (annotate 0 0
        { elems := l, labels := labs0, hasHighlightStyle := style0 }).labels
        = labelIdxList 0 0 1 l := by
      rw [annotate_labels]
      simp only [h1]
      exact hiLabels_all 0 0 l 1 hqual ht
    have h4 : (annotate 0 0
        { elems := l, labels := labs0, hasHighlightStyle := style0 }).elems.filter
          (fun x => x.highlightClass) = l.map markHighlighted := by
      rw [h2]
      apply List.filter_eq_self.mpr
      intro x hx
      obtain ⟨e, _, rfl⟩ := List.mem_map.mp hx
      rfl
    have htext' : ∀ x ∈ l.map markHighlighted, elementText x = "" := by
      intro x hx
      obtain ⟨e, he, rfl⟩ := List.mem_map.mp hx
      rw [elementText, markHighlighted_text]
      exact ht e he
    have h5 : findClickableElement (l.map markHighlighted) std2 (Nat.repr k)
        = none := by
      rw [findClickableElement, if_neg (natRepr_ne_empty k)]
      have hx1 : (l.map markHighlighted).find? (exactMatch (Nat.repr k)) = none :=
        List.find?_eq_none.mpr (fun x hx => by
          simp [exactMatch, htext' x hx])
      have hx2 : (l.map markHighlighted).find? (subMatch (Nat.repr k)) = none :=
        List.find?_eq_none.mpr (fun x hx => by
          simp [subMatch, htext' x hx])
      have hx3 : std2.flatten.find? (exactMatch (Nat.repr k)) = none :=
        List.find?_eq_none.mpr (fun x hx => by
          obtain ⟨g, hg, hxg⟩ := List.mem_flatten.mp hx
          simp [exactMatch, elementText, hstd g hg x hxg])
      have hx4 : std2.flatten.find? (subMatch (Nat.repr k)) = none :=
        List.find?_eq_none.mpr (fun x hx => by
          obtain ⟨g, hg, hxg⟩ := List.mem_flatten.mp hx
          simp [subMatch, elementText, hstd g hg x hxg])
      rw [hx1, hx2, hx3, hx4]
    have hkl : k - 1 < l.length := Nat.lt_of_lt_of_le (Nat.sub_lt hk1 Nat.one_pos) hk2
    have hklm : k - 1 < (l.map markHighlighted).length := by
      rw [List.length_map]
      exact hkl
    have hget : (l.map markHighlighted).get ⟨k - 1, hklm⟩
        = markHighlighted (l.get ⟨k - 1, hkl⟩) := by simp
    have hnear : labelNear (l.map markHighlighted)
        (mkLabel 0 0 k (l.get ⟨k - 1, hkl⟩))
        = some (markHighlighted (l.get ⟨k - 1, hkl⟩)) := by
      have hbefore : ∀ i, i < k - 1 → ∀ hi2 : i < (l.map markHighlighted).length,
          (fun x => decide ((x.rectTop -
              ((mkLabel 0 0 k (l.get ⟨k - 1, hkl⟩)).ltop + 25)).natAbs < 5) &&
            decide ((x.rectLeft -
              (mkLabel 0 0 k (l.get ⟨k - 1, hkl⟩)).lleft).natAbs < 5))
            ((l.map markHighlighted).get ⟨i, hi2⟩) = false := by
        intro i hik hi2
        have hil : i < l.length := by simpa using hi2
        have hgeti : (l.map markHighlighted).get ⟨i, hi2⟩
            = markHighlighted (l.get ⟨i, hil⟩) := by simp
        rw [hgeti]
        have htop : (mkLabel 0 0 k (l.get ⟨k - 1, hkl⟩)).ltop + 25
            = (l.get ⟨k - 1, hkl⟩).rectTop := by
          simp only [mkLabel]
          ring
        have hleft : (mkLabel 0 0 k (l.get ⟨k - 1, hkl⟩)).lleft
            = (l.get ⟨k - 1, hkl⟩).rectLeft := by
          simp only [mkLabel]
          ring
        rw [htop, hleft]
        rcases hsep i hil (k - 1) hkl (by omega) with hgap | hgap
        · simp only [markHighlighted, Bool.and_eq_false_iff, decide_eq_false_iff_not,
            Nat.not_lt]
          left
          exact hgap
        · simp only [markHighlighted, Bool.and_eq_false_iff, decide_eq_false_iff_not,
            Nat.not_lt]
          right
          exact hgap
      have hat : (fun x => decide ((x.rectTop -
              ((mkLabel 0 0 k (l.get ⟨k - 1, hkl⟩)).ltop + 25)).natAbs < 5) &&
            decide ((x.rectLeft -
              (mkLabel 0 0 k (l.get ⟨k - 1, hkl⟩)).lleft).natAbs < 5))
            ((l.map markHighlighted).get ⟨k - 1, hklm⟩) = true := by
        rw [hget]
        simp only [markHighlighted, mkLabel, Bool.and_eq_true, decide_eq_true_eq]
        constructor
        · rw [show (l.get ⟨k - 1, hkl⟩).rectTop -
              ((l.get ⟨k - 1, hkl⟩).rectTop + 0 - 25 + 25) = 0 by ring]
          decide
        · rw [show (l.get ⟨k - 1, hkl⟩).rectLeft -
              ((l.get ⟨k - 1, hkl⟩).rectLeft + 0) = 0 by ring]
          decide
      rw [labelNear]
      exact (find?_first_at _ (l.map markHighlighted) (k - 1) hklm hbefore hat).trans
        (congrArg some hget)
    have h7 : findElementByLabel (l.map markHighlighted) (Nat.repr k)
        (labelIdxList 0 0 1 l) = some (markHighlighted (l.get ⟨k - 1, hkl⟩)) := by
      have hdrop : l.drop (k - 1) = l.get ⟨k - 1, hkl⟩ :: l.drop k := by
        have hk' : k - 1 + 1 = k := by omega
        rw [List.drop_eq_getElem_cons hkl, hk']
        simp only [List.get_eq_getElem]
      have htklen : (l.take (k - 1)).length = k - 1 := by
        rw [List.length_take]
        omega
      have hlabels : labelIdxList 0 0 1 l
          = labelIdxList 0 0 1 (l.take (k - 1))
            ++ (mkLabel 0 0 k (l.get ⟨k - 1, hkl⟩)
                :: labelIdxList 0 0 (k + 1) (l.drop k)) := by
        conv_lhs => rw [← List.take_append_drop (k - 1) l]
        rw [labelIdxList_append, htklen, show 1 + (k - 1) = k by omega, hdrop]
        rfl
      have hskip : ∀ lab ∈ labelIdxList 0 0 1 (l.take (k - 1)),
          lab.ltext ≠ Nat.repr k := by
        intro lab hlab
        obtain ⟨j, hj, hjr⟩ := labelIdxList_text 0 0 _ 1 lab hlab
        rw [htklen] at hj
        rw [hjr]
        intro hcon
        have := natRepr_injective hcon
        omega
      rw [hlabels, findByLabel_skip _ _ _ _ hskip]
      exact findByLabel_hit _ _ _ _ _ rfl hnear
    simp only [clickRun, h4, h5, natRepr_numeric k, if_true, h3, h7]

/-- Witness for C5: the unique textual identifier `Login` resolves to
the highlighted login button, and with only numeric labels `Click(2)`
resolves to the second annotated element. -/
theorem C5_click_resolution_witness :
    clickRun loginDom [] "Login" = Except.ok loginElem
    ∧ clickRun (annotate 0 0 freshDom2) [] (Nat.repr 2)
        = Except.ok (markHighlighted freshElem2) := by
  constructor
  · exact (C5_click_resolution loginDom [] "Login").2.2.2.1 loginElem
      (by decide) (by decide) (by decide) (by decide)
  · exact (C5_click_resolution loginDom [] "Login").2.2.2.2
      [freshElem, freshElem2] [] [] false 2
      (by decide) (by decide) (by decide) (by decide) (by decide)
      (by decide) (by decide)

/-! ## Decision-loop lemmas (C1, C6) -/

theorem contentTruthy_none : contentTruthy none = false := rfl

theorem contentTruthy_some (m : String) : contentTruthy (some m) = decide (m ≠ "") := rfl

theorem runLoop_benign :
    ∀ (rs : List ModelResponse) (s : LoopState),
      (∀ r ∈ rs, benignResponse r) →
      s.stepCount ≤ 25 → 25 ≤ s.stepCount + rs.length →
      (runLoop rs s).1 = LoopExit.maxStepsReached
      ∧ (runLoop rs s).2.stepCount = 25
      ∧ (runLoop rs s).2.modelCalls = s.modelCalls + (25 - s.stepCount) := by
  intro rs
  induction rs with
  | nil =>
    intro s _ h1 h2
    have hs : s.stepCount = 25 := by simp at h2; omega
    rw [runLoop, if_neg (by omega)]
    refine ⟨rfl, hs, ?_⟩
    show s.modelCalls = s.modelCalls + (25 - s.stepCount)
    omega
  | cons r rest ih =>
    intro s hb h1 h2
    obtain ⟨hcont, hcap, hterr, tc, htc, hsome⟩ := hb r (by simp)
    have hbrest : ∀ x ∈ rest, benignResponse x :=
      fun x hx => hb x (List.mem_cons_of_mem r hx)
    by_cases hlt : s.stepCount < 25
    · obtain ⟨cmd, hcmd⟩ := Option.isSome_iff_exists.mp hsome
      cases hshot : r.screenshot with
      | none =>
        have hred : runLoop (r :: rest) s
            = runLoop rest
                { s with modelCalls := s.modelCalls + 1,
                         stepCount := s.stepCount + 1,
                         commands := s.commands ++ [cmd] } := by
          rw [runLoop, if_pos hlt]
          simp [hcont, htc, hcmd, hcap, hterr, hshot, execAction, contentTruthy]
        rw [hred]
        have hih := ih
          { s with modelCalls := s.modelCalls + 1,
                   stepCount := s.stepCount + 1,
                   commands := s.commands ++ [cmd] }
          hbrest (by simp; omega) (by simp at h2 ⊢; omega)
        refine ⟨hih.1, hih.2.1, ?_⟩
        rw [hih.2.2]
        show s.modelCalls + 1 + (25 - (s.stepCount + 1))
            = s.modelCalls + (25 - s.stepCount)
        omega
      | some shot =>
        have hred : runLoop (r :: rest) s
            = runLoop rest
                { s with modelCalls := s.modelCalls + 1,
                         stepCount := s.stepCount + 1,
                         commands := s.commands ++ [cmd],
                         messages := s.messages ++ [Msg.screenshotMsg (toolNameOf tc)] } := by
          rw [runLoop, if_pos hlt]
          simp [hcont, htc, hcmd, hcap, hterr, hshot, execAction, contentTruthy]
        rw [hred]
        have hih := ih
          { s with modelCalls := s.modelCalls + 1,
                   stepCount := s.stepCount + 1,
                   commands := s.commands ++ [cmd],
                   messages := s.messages ++ [Msg.screenshotMsg (toolNameOf tc)] }
          hbrest (by simp; omega) (by simp at h2 ⊢; omega)
        refine ⟨hih.1, hih.2.1, ?_⟩
        rw [hih.2.2]
        show s.modelCalls + 1 + (25 - (s.stepCount + 1))
            = s.modelCalls + (25 - s.stepCount)
        omega
    · rw [runLoop, if_neg hlt]
      refine ⟨rfl, ?_, ?_⟩
      · show s.stepCount = 25
        omega
      · show s.modelCalls = s.modelCalls + (25 - s.stepCount)
        omega

/-- C1: counterexample to the claim as stated.  With a model that
returns a tool call on 26 consecutive scripted turns, the loop makes
exactly 25 model calls (the 26th iteration is not attempted) and the
supervisor marks the run FAILED — but with the `TypeError` message from
reading `steps` of `performTask`'s undefined return value, not with
reason `max steps`. -/
theorem C1_maxsteps_counterexample :
    (runLoop (List.replicate 26 benignToolResponse) (initialState "task")).1
        = LoopExit.maxStepsReached
    ∧ (runLoop (List.replicate 26 benignToolResponse) (initialState "task")).2.modelCalls
        = 25
    ∧ liveRunOutcome
        (runLoop (List.replicate 26 benignToolResponse) (initialState "task")).1
        = (RunStatus.FAILED, undefinedStepsMessage)
    ∧ undefinedStepsMessage ≠ "max steps" := by
  refine ⟨by decide, by decide, by decide, by decide⟩

/-- C1 (amended): when the model produces a tool call on every
iteration, the decision loop stops after exactly 25 model calls with the
`while`-condition exit — the 26th iteration is never attempted — and the
supervisor then marks the run FAILED, with the `TypeError` message of
the `result.steps` access as the reason rather than `max steps`
(performTask itself raises no max-steps error). -/
theorem C1_maxsteps_amended :
    ∀ (task : String) (rs : List ModelResponse),
      rs.length = 26 → (∀ r ∈ rs, benignResponse r) →
      (runLoop rs (initialState task)).1 = LoopExit.maxStepsReached
      ∧ (runLoop rs (initialState task)).2.modelCalls = 25
      ∧ (runLoop rs (initialState task)).2.stepCount = 25
      ∧ liveRunOutcome (runLoop rs (initialState task)).1
          = (RunStatus.FAILED, undefinedStepsMessage) := by
  intro task rs hlen hb
  have h := runLoop_benign rs (initialState task) hb (by simp [initialState])
    (by simp [initialState, hlen])
  refine ⟨h.1, ?_, h.2.1, ?_⟩
  · rw [h.2.2]
    rfl
  · rw [h.1]
    rfl

/-- Witness for C1 (amended) on 26 scripted tool-call turns. -/
theorem C1_maxsteps_amended_witness :
    (runLoop (List.replicate 26 benignToolResponse) (initialState "go")).1
        = LoopExit.maxStepsReached
    ∧ (runLoop (List.replicate 26 benignToolResponse) (initialState "go")).2.modelCalls
        = 25
    ∧ (runLoop (List.replicate 26 benignToolResponse) (initialState "go")).2.stepCount
        = 25
    ∧ liveRunOutcome
        (runLoop (List.replicate 26 benignToolResponse) (initialState "go")).1
        = (RunStatus.FAILED, undefinedStepsMessage) := by
  apply C1_maxsteps_amended "go" (List.replicate 26 benignToolResponse) rfl
  intro r hr
  rw [List.eq_of_mem_replicate hr]
  exact ⟨rfl, rfl, rfl, ToolCall.handleClick "x", rfl, rfl⟩

/-- C6: counterexample to the claim as stated.  Two consecutive turns
`[x]` and `[y]` are byte-identical after stripping bracketed decorators
(both strip to the empty string), yet no repetition error is raised —
the validator additionally requires the stripped text to be non-empty —
and both turns execute their tool calls without any guidance turn being
injected. -/
theorem C6_repetition_counterexample :
    stripBrackets "[x]" = stripBrackets "[y]"
    ∧ repetitionThrown (filteredOf "[x]") "[y]" = false
    ∧ (runLoop [respBracketX, respBracketY] (initialState "t")).2.stepCount = 2
    ∧ Msg.userMsg guidanceText
        ∉ (runLoop [respBracketX, respBracketY] (initialState "t")).2.messages := by
  refine ⟨rfl, by decide, by decide, by decide⟩

/-- C6 (amended): a repetition error is raised iff the current turn's
bracket-stripped and trimmed text is non-empty and equal to the stored
previous turn's stripped-and-trimmed text; when it is raised, the
supervising loop consumes the turn by appending the guidance user
message and continues with the state otherwise unchanged — in
particular `stepCount` and the recorded commands are untouched, so the
repeated turn produces no Step. -/
theorem C6_repetition_amended :
    (∀ prev msg, repetitionThrown prev msg = true
        ↔ (filteredOf msg ≠ "" ∧ prev = filteredOf msg))
    ∧ (∀ (s : LoopState) (r : ModelResponse) (rest : List ModelResponse) (msg : String),
        s.stepCount < 25 → r.content = some msg →
        repetitionThrown s.prevMessage msg = true →
        runLoop (r :: rest) s
          = runLoop rest
              { s with modelCalls := s.modelCalls + 1,
                       messages := s.messages ++ [Msg.userMsg guidanceText] }) := by
  constructor
  · intro prev msg
    simp [repetitionThrown, Bool.and_eq_true, decide_eq_true_eq]
  · intro s r rest msg hsc hc hrep
    have hmne : msg ≠ "" := by
      intro h0
      subst h0
      have hz : repetitionThrown s.prevMessage "" = false := by
        simp [repetitionThrown, show filteredOf "" = "" from rfl]
      rw [hz] at hrep
      exact Bool.false_ne_true hrep
    have hct : contentTruthy r.content = true := by
      rw [hc, contentTruthy_some]
      simpa using hmne
    rw [runLoop, if_pos hsc]
    rw [hc] at hct ⊢
    simp only [hct, Option.getD_some, Bool.true_and, hrep, if_true]

/-- Witness for C6 (amended): a concrete repeated turn raises the error
and the loop answers it with the guidance message. -/
theorem C6_repetition_amended_witness :
    repetitionThrown "abc" "abc [note]" = true
    ∧ runLoop [repeatedResp] repeatedState
        = runLoop []
            { repeatedState with
                modelCalls := repeatedState.modelCalls + 1,
                messages := repeatedState.messages ++ [Msg.userMsg guidanceText] } := by
  constructor
  · exact (C6_repetition_amended.1 "abc" "abc [note]").mpr ⟨by decide, by decide⟩
  · exact C6_repetition_amended.2 repeatedState repeatedResp [] "abc [note]"
      (by decide) rfl (by decide)

end Autosurf
